import Mathlib

/-!
Verification development for the radsniff correlation/statistics engine and
the proto_arp listener of this repository.

The data model (struct `rs_latency`, `rs_request`, constants) is embedded
from `src/include/radsniff.h`.  The operations of the correlator and the
statistics aggregator (`radsniff.c`) are not part of this source slice, so
they are modelled from the specification (sections 4.4 and 4.5) and marked
as such in their doc comments.  The ARP listener functions are embedded
directly from `src/modules/proto_arp/proto_arp.c`.
-/

namespace Radsniff

/-- `RS_DEFAULT_TIMEOUT` from radsniff.h line 41: standard timeout of 5 + 1. -/
def RS_DEFAULT_TIMEOUT : Nat := 6

/-- `RS_FORCE_YIELD` from radsniff.h line 42: service another descriptor every X packets. -/
def RS_FORCE_YIELD : Nat := 100

/-- `RS_RETRANSMIT_MAX` from radsniff.h line 43: maximum number of times we expect
to see a packet retransmitted. -/
def RS_RETRANSMIT_MAX : Nat := 5

/-- The anonymous `interval` struct inside `rs_latency` (radsniff.h lines 84-98).
Machine counters (`uint64_t`) are modelled as `Nat`; the floating point latency
fields (`long double` / `double`) are modelled as exact rationals.  The `rt`
array of `RS_RETRANSMIT_MAX + 1` elements is modelled as a list of that length. -/
structure RsInterval where
  linked : Nat
  unlinked : Nat
  reused : Nat
  rt : List Nat
  lost : Nat
  latency_total : ℚ
  latency_average : ℚ
  latency_high : ℚ
  latency_low : ℚ

/-- `rs_latency_t` (radsniff.h lines 78-99): cumulative moving average state plus
the per-interval statistics. -/
structure RsLatency where
  intervals : Nat
  latency_cma : ℚ
  latency_cma_count : Nat
  interval : RsInterval

/-- The all-zero interval state: every counter zero, the `rt` histogram holding
`RS_RETRANSMIT_MAX + 1` zeroed buckets, latency sums and watermarks zero
(zero doubles as the "no data" sentinel for `latency_low`). -/
def rsIntervalInit : RsInterval :=
  { linked := 0, unlinked := 0, reused := 0,
    rt := List.replicate (RS_RETRANSMIT_MAX + 1) 0, lost := 0,
    latency_total := 0, latency_average := 0,
    latency_high := 0, latency_low := 0 }

/-- Initial `rs_latency_t` state (as produced by zeroing the enclosing
`rs_stats_t` allocation). -/
def rsLatencyInit : RsLatency :=
  { intervals := 0, latency_cma := 0, latency_cma_count := 0,
    interval := rsIntervalInit }

/-- The histogram bucket index for a retransmit count: spec section 3,
"A histogram bucket index is min(retransmit_count, MAX)". -/
def rsRtBucket (n : Nat) : Nat := min n RS_RETRANSMIT_MAX

/-- Record one observation in the retransmission histogram at the bucket for
retransmit count `n`. -/
def rsBumpRt (l : List Nat) (n : Nat) : List Nat :=
  l.set (rsRtBucket n) (l.getD (rsRtBucket n) 0 + 1)

/-- Modelled from the spec: the StatsAggregator latency update of section 4.5
(the body of radsniff.c's `rs_stats_update_latency` is not in this source
slice).  Cumulative moving average rule `cma' = cma + (latency - cma) / (count + 1)`,
`count' = count + 1`; interval total accumulates; `latency_high` is a running
max; `latency_low` is a running min with 0 as the "no data" sentinel. -/
def rs_stats_update_latency (s : RsLatency) (latency : ℚ) : RsLatency :=
  { s with
    latency_cma :=
      s.latency_cma + (latency - s.latency_cma) / ((s.latency_cma_count : ℚ) + 1),
    latency_cma_count := s.latency_cma_count + 1,
    interval :=
      { s.interval with
        latency_total := s.interval.latency_total + latency,
        latency_high := max s.interval.latency_high latency,
        latency_low :=
          if s.interval.latency_low = 0 ∨ latency < s.interval.latency_low then
            latency
          else s.interval.latency_low } }

/-- Modelled from the spec: the emission tick of section 4.5 (the body of
radsniff.c's stats-interval handler is not in this source slice).  The
interval-scoped fields are reset to their zero/sentinel values, the interval
counter advances, and the cumulative fields persist untouched. -/
def rs_stats_on_tick (s : RsLatency) : RsLatency :=
  { intervals := s.intervals + 1,
    latency_cma := s.latency_cma,
    latency_cma_count := s.latency_cma_count,
    interval := rsIntervalInit }

/-- An event seen by one `rs_latency_t` bucket: either a latency sample being
recorded (a linked request/response pair) or an emission tick. -/
inductive RsStatsEvent where
  | record (latency : ℚ)
  | tick

/-- Apply one stats event. -/
def rsStatsStep (s : RsLatency) : RsStatsEvent → RsLatency
  | .record x => rs_stats_update_latency s x
  | .tick => rs_stats_on_tick s

/-- Apply a sequence of stats events in order. -/
def rsStatsRun (s : RsLatency) (es : List RsStatsEvent) : RsLatency :=
  es.foldl rsStatsStep s

/-- The latency samples contained in an event sequence, in order. -/
def rsSamples (es : List RsStatsEvent) : List ℚ :=
  es.filterMap (fun e => match e with | .record x => some x | .tick => none)

/-- A decoded packet envelope as the correlator sees it: protocol code, whether
the code identifies a request type, the correlation key derived from endpoints
and the protocol identifier field, the authenticator/content fingerprint, and
the capture timestamp. -/
structure RsPacket where
  code : Nat
  req : Bool
  key : Nat
  fingerprint : Nat
  ts : ℚ

/-- `rs_request_t` (radsniff.h lines 125-142): an outstanding request.  The
owned packet is represented by the fields correlation needs (key, fingerprint,
code, first-seen timestamp); the armed `event` expiry timer is represented by
its deadline; `stats_req` (the back-reference to the latency bucket for the
request type) is represented by the code indexing it. -/
structure RsRequest where
  id : Nat
  key : Nat
  code : Nat
  fingerprint : Nat
  ts : ℚ
  expiry : ℚ
  rt_req : Nat
  rt_rsp : Nat
  forced_cleanup : Bool

/-- Correlator state: the RequestTable (keyed store of in-flight requests, at
most one live entry per key), the per-code `exchange` latency stats, and the
monotonically increasing packet id counter. -/
structure RsState where
  table : List RsRequest
  stats : Nat → RsLatency
  nextId : Nat

/-- The empty correlator state. -/
def rsInitState : RsState :=
  { table := [], stats := fun _ => rsLatencyInit, nextId := 0 }

/-- Point update of the per-code stats array. -/
def updStats (f : Nat → RsLatency) (c : Nat) (g : RsLatency → RsLatency) :
    Nat → RsLatency :=
  fun c' => if c' = c then g (f c') else f c'

/-- Lookup an in-flight request by its correlation key. -/
def rsFind (t : List RsRequest) (k : Nat) : Option RsRequest :=
  t.find? (fun r => r.key == k)

/-- Modelled from the spec: the Correlator transition rules of section 4.4
(the body of radsniff.c's `rs_packet_process` is not in this source slice).
Rule 1: an unmatched request-typed packet creates a Pending entry and arms its
expiry timer at `now + timeout`.  Rule 2: a matching request with the same
fingerprint is a retransmission: `rt_req` is incremented and the histogram
bucket `min(retransmit_count, RS_RETRANSMIT_MAX)` is bumped.  Rule 3: a
matching request with a different fingerprint is a reused identifier: `reused`
is counted and the entry is replaced by a fresh Pending one.  Rule 4: a
response matching a Pending entry is linked: `linked` is counted, the latency
from the first-seen request feeds the latency stats, and the entry is removed.
Rule 5: an unmatched response counts as `unlinked`; no entry is created. -/
def rs_packet_process (timeout : ℚ) (s : RsState) (p : RsPacket) : RsState :=
  match rsFind s.table p.key with
  | none =>
    if p.req then
      { table := s.table ++
          [{ id := s.nextId, key := p.key, code := p.code,
             fingerprint := p.fingerprint, ts := p.ts, expiry := p.ts + timeout,
             rt_req := 0, rt_rsp := 0, forced_cleanup := false }],
        stats := s.stats, nextId := s.nextId + 1 }
    else
      { s with stats := updStats s.stats p.code (fun L =>
          { L with interval := { L.interval with unlinked := L.interval.unlinked + 1 } }) }
  | some r =>
    if p.req then
      if p.fingerprint == r.fingerprint then
        { s with
          table := s.table.map (fun q =>
            if q.key == p.key then { q with rt_req := q.rt_req + 1 } else q),
          stats := updStats s.stats r.code (fun L =>
            { L with interval :=
                { L.interval with rt := rsBumpRt L.interval.rt (r.rt_req + 1) } }) }
      else
        { table := s.table.filter (fun q => !(q.key == p.key)) ++
            [{ id := s.nextId, key := p.key, code := p.code,
               fingerprint := p.fingerprint, ts := p.ts, expiry := p.ts + timeout,
               rt_req := 0, rt_rsp := 0, forced_cleanup := false }],
          stats := updStats s.stats r.code (fun L =>
            { L with interval := { L.interval with reused := L.interval.reused + 1 } }),
          nextId := s.nextId + 1 }
    else
      { s with
        table := s.table.filter (fun q => !(q.key == p.key)),
        stats := updStats s.stats p.code (fun L =>
          rs_stats_update_latency
            { L with interval := { L.interval with linked := L.interval.linked + 1 } }
            (p.ts - r.ts)) }

/-- Process a sequence of captured packets in arrival order. -/
def rs_process_all (timeout : ℚ) (s : RsState) (ps : List RsPacket) : RsState :=
  ps.foldl (rs_packet_process timeout) s

/-- Modelled from the spec: expiry firing, section 4.4 (the body of
radsniff.c's cleanup callback is not in this source slice).  If the entry is
still Pending when its timer fires it transitions to Expired: `lost` is
incremented for its code unless `forced_cleanup` is set, and the entry is
removed from the table. -/
def rs_packet_cleanup (s : RsState) (k : Nat) : RsState :=
  match rsFind s.table k with
  | none => s
  | some r =>
    { s with
      table := s.table.filter (fun q => !(q.key == k)),
      stats :=
        if r.forced_cleanup then s.stats
        else updStats s.stats r.code (fun L =>
          { L with interval := { L.interval with lost := L.interval.lost + 1 } }) }

/-- Mark the entry holding key `k` for forced cleanup (policy teardown). -/
def rsSetForced (s : RsState) (k : Nat) : RsState :=
  { s with table := s.table.map (fun r =>
      if r.key == k then { r with forced_cleanup := true } else r) }

/-- Modelled from the spec: policy teardown (e.g. table-full eviction),
sections 3 and the glossary (the body is not in this source slice).  The
`forced_cleanup` flag is set and the entry is torn down in the same operation,
so its removal is excluded from loss accounting. -/
def rs_force_cleanup (s : RsState) (k : Nat) : RsState :=
  rs_packet_cleanup (rsSetForced s k) k

/-- The first scheduler wakeup time at which a timer with deadline `d` fires:
the scheduler checks expiry at each wakeup and fires every timer whose
deadline has passed. -/
def rsFirstFire (d : ℚ) (checks : List ℚ) : Option ℚ :=
  checks.find? (fun t => decide (d ≤ t))

end Radsniff

namespace ProtoArp

/-- `ETHER_ADDR_LEN`: length of an Ethernet hardware address. -/
def ETHER_ADDR_LEN : Nat := 6

/-- `ARPHRD_ETHER` from net/if_arp.h: Ethernet hardware-address format. -/
def ARPHRD_ETHER : Nat := 1

/-- `sizeof(struct ethernet_header)`: destination MAC (6) + source MAC (6) +
ethertype (2) = 14 bytes. -/
def sizeofEthernetHeader : Nat := 14

/-- `sizeof(struct arphdr_ether_ipv4)` (proto_arp.c lines 44-54): two
`uint16_t`, three `uint8_t`, 6+4+6+4 address bytes = 27 bytes of fields,
padded to 28 by the struct's 2-byte alignment. -/
def sizeofArphdrEtherIpv4 : Nat := 28

/-- The outcome of `pcap_next_ex` as `arp_socket_recv` consumes it: the return
code, and on success the capture length and the four ARP header fields the
function inspects (hardware format and protocol format already converted to
host order by `ntohs`). -/
inductive PcapNext where
  | timeout
  | fail
  | packet (caplen ar_hrd ar_pro ar_hln ar_pln : Nat)

/-- The environment `arp_socket_recv` runs in: the next capture result,
whether `talloc_zero` succeeds, and whether `request_receive` accepts the
packet. -/
structure ArpRecvEnv where
  next : PcapNext
  tallocOk : Bool
  requestReceiveOk : Bool

/-- What a call to `arp_socket_recv` did: its return value, whether a
`RADIUS_PACKET` was allocated, and whether the packet was handed to
`request_receive` successfully. -/
structure ArpRecvResult where
  ret : Int
  allocated : Bool
  received : Bool

/-- `arp_socket_recv` (proto_arp.c lines 103-155).  A pcap timeout or error
returns 0.  A captured frame shorter than the Ethernet plus ARP headers is
silently ignored.  The hardware format must be `ARPHRD_ETHER`, the protocol
format 0x0800 (IPv4), the hardware address length `ETHER_ADDR_LEN` and the
protocol address length 4; any mismatch returns 0 before any allocation.
Then a packet is allocated and handed to `request_receive`: on rejection the
packet is freed and 0 returned, otherwise 1. -/
def arp_socket_recv (env : ArpRecvEnv) : ArpRecvResult :=
  match env.next with
  | .timeout => { ret := 0, allocated := false, received := false }
  | .fail => { ret := 0, allocated := false, received := false }
  | .packet caplen ar_hrd ar_pro ar_hln ar_pln =>
    if caplen < sizeofEthernetHeader + sizeofArphdrEtherIpv4 then
      { ret := 0, allocated := false, received := false }
    else if ar_hrd != ARPHRD_ETHER then
      { ret := 0, allocated := false, received := false }
    else if ar_pro != 0x0800 then
      { ret := 0, allocated := false, received := false }
    else if ar_hln != ETHER_ADDR_LEN then
      { ret := 0, allocated := false, received := false }
    else if ar_pln != 4 then
      { ret := 0, allocated := false, received := false }
    else if !env.tallocOk then
      { ret := 0, allocated := false, received := false }
    else if !env.requestReceiveOk then
      { ret := 0, allocated := true, received := false }
    else
      { ret := 1, allocated := true, received := true }

/-- `header_names` (proto_arp.c lines 174-186): the nine fixed ARP header
fields decoded by `arp_socket_decode`, each with its byte length, in wire
order (the terminating null entry drives the loop and is not an element). -/
def header_names : List (String × Nat) :=
  [("ARP-Hardware-Format", 2),
   ("ARP-Protocol-Format", 2),
   ("ARP-Hardware-Address-Length", 1),
   ("ARP-Protocol-Address-Length", 1),
   ("ARP-Operation", 2),
   ("ARP-Sender-Hardware-Address", 6),
   ("ARP-Sender-Protocol-Address", 4),
   ("ARP-Target-Hardware-Address", 6),
   ("ARP-Target-Protocol-Address", 4)]

/-- The environment `arp_socket_decode` runs in, indexed by the position of a
field in `header_names`: whether `dict_attrbyname` finds the attribute, and
whether `data2vp` decodes it to a value pair (returns a positive length). -/
structure ArpDecodeEnv where
  dictHas : Nat → Bool
  decodeOk : Nat → Bool

/-- The decode loop of `arp_socket_decode` (proto_arp.c lines 202-225): walks
the fields from index `i` at byte offset `off`, appending one `(index, offset)`
pair per field successfully decoded and added with `pairadd`; a missing
dictionary attribute or a failed decode returns immediately, keeping the pairs
already added. -/
def arpDecodeLoop (env : ArpDecodeEnv) :
    Nat → Nat → List (String × Nat) → List (Nat × Nat)
  | _, _, [] => []
  | i, off, (_, len) :: rest =>
    if env.dictHas i then
      if env.decodeOk i then (i, off) :: arpDecodeLoop env (i + 1) (off + len) rest
      else []
    else []

/-- `arp_socket_decode` (proto_arp.c lines 188-228): runs the decode loop over
`header_names` from offset 0 (the byte right after the Ethernet header) and
always returns 0.  The first component lists the value pairs added, as
`(field index, byte offset)`. -/
def arp_socket_decode (env : ArpDecodeEnv) : List (Nat × Nat) × Int :=
  (arpDecodeLoop env 0 0 header_names, 0)

/-- The environment `arp_socket_parse` runs in: the "interface" config pair
(`none` when absent, `some none` when present without a value), whether
`fr_pcap_init`, `fr_pcap_open` and `fr_pcap_apply_filter` succeed, and the
global `check_config` flag. -/
structure ArpParseEnv where
  interfacePair : Option (Option String)
  pcapInitOk : Bool
  checkConfig : Bool
  pcapOpenOk : Bool
  filterOk : Bool

/-- What a call to `arp_socket_parse` did: its return value and which pcap
operations were attempted. -/
structure ArpParseResult where
  ret : Int
  initCalled : Bool
  openCalled : Bool
  filterCalled : Bool

/-- `arp_socket_parse` (proto_arp.c lines 240-301).  A missing "interface"
pair or a pair with no value fails with -1 before any pcap setup.  Then the
pcap handle is created; on failure -1.  When `check_config` is set the
function returns 0 right after creating the handle, without opening the
interface or applying the "arp" filter.  Otherwise the interface is opened
and the filter applied (each failing with -1), and the fake client is set up
before returning 0. -/
def arp_socket_parse (env : ArpParseEnv) : ArpParseResult :=
  match env.interfacePair with
  | none => { ret := -1, initCalled := false, openCalled := false, filterCalled := false }
  | some none => { ret := -1, initCalled := false, openCalled := false, filterCalled := false }
  | some (some _) =>
    if !env.pcapInitOk then
      { ret := -1, initCalled := true, openCalled := false, filterCalled := false }
    else if env.checkConfig then
      { ret := 0, initCalled := true, openCalled := false, filterCalled := false }
    else if !env.pcapOpenOk then
      { ret := -1, initCalled := true, openCalled := true, filterCalled := false }
    else if !env.filterOk then
      { ret := -1, initCalled := true, openCalled := true, filterCalled := true }
    else
      { ret := 0, initCalled := true, openCalled := true, filterCalled := true }

end ProtoArp

namespace Radsniff

theorem rsStatsRun_cma_closed (es : List RsStatsEvent) (s : RsLatency) :
    (rsStatsRun s es).latency_cma_count = s.latency_cma_count + (rsSamples es).length ∧
    (rsStatsRun s es).latency_cma *
        ((s.latency_cma_count : ℚ) + ((rsSamples es).length : ℚ)) =
      s.latency_cma * (s.latency_cma_count : ℚ) + (rsSamples es).sum := by
  induction es generalizing s with
  | nil => simp [rsStatsRun, rsSamples]
  | cons e es ih =>
    cases e with
    | record x =>
      have hrun : rsStatsRun s (.record x :: es) =
          rsStatsRun (rs_stats_update_latency s x) es := rfl
      have hs : rsSamples (.record x :: es) = x :: rsSamples es := rfl
      obtain ⟨ih1, ih2⟩ := ih (rs_stats_update_latency s x)
      rw [hrun, hs]
      have hcount : (rs_stats_update_latency s x).latency_cma_count =
          s.latency_cma_count + 1 := rfl
      have hcma : (rs_stats_update_latency s x).latency_cma =
          s.latency_cma +
            (x - s.latency_cma) / ((s.latency_cma_count : ℚ) + 1) := rfl
      constructor
      · rw [ih1, hcount, List.length_cons]; omega
      · have hne : ((s.latency_cma_count : ℚ) + 1) ≠ 0 := by positivity
        have hstep : (rs_stats_update_latency s x).latency_cma *
            ((s.latency_cma_count : ℚ) + 1) =
            s.latency_cma * (s.latency_cma_count : ℚ) + x := by
          rw [hcma]; field_simp; ring
        rw [hcount] at ih2
        have key : ((s.latency_cma_count : ℚ) + ((x :: rsSamples es).length : ℚ)) =
            ((s.latency_cma_count : ℚ) + 1 + ((rsSamples es).length : ℚ)) := by
          rw [List.length_cons]; push_cast; ring
        push_cast at ih2
        rw [key, ih2, hstep, List.sum_cons]
        ring
    | tick =>
      have hrun : rsStatsRun s (.tick :: es) =
          rsStatsRun (rs_stats_on_tick s) es := rfl
      have hs : rsSamples (.tick :: es) = rsSamples es := rfl
      obtain ⟨ih1, ih2⟩ := ih (rs_stats_on_tick s)
      rw [hrun, hs]
      exact ⟨ih1, ih2⟩

/-- C2: for latencies recorded in order through the cumulative-moving-average
update rule `cma' = cma + (latency - cma) / (count + 1)`, `count' = count + 1`,
starting from the zeroed `rs_latency_t`, the resulting `latency_cma` equals the
arithmetic mean of the recorded samples, no matter how many emission ticks are
interleaved between them (the model uses exact rational arithmetic in place of
C doubles, so equality is exact). -/
theorem cma_equals_arithmetic_mean (es : List RsStatsEvent)
    (h : rsSamples es ≠ []) :
    (rsStatsRun rsLatencyInit es).latency_cma =
      (rsSamples es).sum / ((rsSamples es).length : ℚ) := by
  obtain ⟨-, h2⟩ := rsStatsRun_cma_closed es rsLatencyInit
  have hlen : ((rsSamples es).length : ℚ) ≠ 0 := by
    have : (rsSamples es).length ≠ 0 := by
      simpa [List.length_eq_zero] using h
    exact_mod_cast this
  have h2' : (rsStatsRun rsLatencyInit es).latency_cma *
      ((rsSamples es).length : ℚ) = (rsSamples es).sum := by
    simpa [rsLatencyInit] using h2
  rw [eq_div_iff hlen]
  exact h2'

/-- Concrete event sequence exercising the CMA theorem: two samples with a
tick between them. -/
def c2Events : List RsStatsEvent := [.record 1, .tick, .record 3]

/-- Witness for C2: the concrete sequence `1, tick, 3` has nonempty samples
and its cumulative moving average is the mean `(1 + 3) / 2`. -/
theorem cma_equals_arithmetic_mean_witness :
    rsSamples c2Events ≠ [] ∧
    (rsStatsRun rsLatencyInit c2Events).latency_cma =
      (rsSamples c2Events).sum / ((rsSamples c2Events).length : ℚ) :=
  ⟨by decide, cma_equals_arithmetic_mean c2Events (by decide)⟩

/-- C3: the retransmission histogram bucket index used for a retransmit count
`r` is `min r RS_RETRANSMIT_MAX`, which is always a valid index into the `rt`
array of `RS_RETRANSMIT_MAX + 1` elements, and recording into the histogram
never changes the array's length — no retransmit count, however large,
produces an out-of-bounds write. -/
theorem rt_bucket_always_in_bounds (r : Nat) (l : List Nat) :
    rsRtBucket r = min r RS_RETRANSMIT_MAX ∧
    rsRtBucket r < RS_RETRANSMIT_MAX + 1 ∧
    rsRtBucket r < rsIntervalInit.rt.length ∧
    (rsBumpRt l r).length = l.length := by
  refine ⟨rfl, ?_, ?_, ?_⟩
  · have := Nat.min_le_right r RS_RETRANSMIT_MAX
    simp only [rsRtBucket]
    omega
  · have := Nat.min_le_right r RS_RETRANSMIT_MAX
    simp only [rsRtBucket, rsIntervalInit, List.length_replicate]
    omega
  · simp [rsBumpRt]

/-- C6: an emission tick resets exactly the interval-scoped fields (the
counters `linked`, `unlinked`, `reused`, the `rt` histogram, `lost`, the
interval latency total and average, and the high/low watermarks) to their
zero/sentinel values, while leaving `latency_cma` and `latency_cma_count`
unchanged; and no stats operation ever resets the cumulative sample count. -/
theorem on_tick_resets_interval_scoped_fields_only (s : RsLatency) :
    (rs_stats_on_tick s).interval = rsIntervalInit ∧
    (rs_stats_on_tick s).latency_cma = s.latency_cma ∧
    (rs_stats_on_tick s).latency_cma_count = s.latency_cma_count ∧
    (rs_stats_on_tick s).intervals = s.intervals + 1 ∧
    ∀ e : RsStatsEvent, s.latency_cma_count ≤ (rsStatsStep s e).latency_cma_count := by
  refine ⟨rfl, rfl, rfl, rfl, ?_⟩
  intro e
  cases e with
  | record x =>
    simp [rsStatsStep, rs_stats_update_latency]
  | tick =>
    simp [rsStatsStep, rs_stats_on_tick]

theorem rs_response_nomatch_step (t : ℚ) (s : RsState) (p : RsPacket)
    (hreq : p.req = false) (hfind : rsFind s.table p.key = none) :
    (rs_packet_process t s p).table = s.table ∧
    (rs_packet_process t s p).nextId = s.nextId ∧
    ∀ c, ((rs_packet_process t s p).stats c).interval.unlinked =
      (s.stats c).interval.unlinked + (if p.code = c then 1 else 0) := by
  refine ⟨?_, ?_, ?_⟩ <;>
    simp only [rs_packet_process, hfind, hreq, Bool.false_eq_true, if_false]
  intro c
  by_cases hc : c = p.code
  · subst hc; simp [updStats]
  · simp [updStats, hc, Ne.symm hc]

/-- C4: processing any sequence of response-typed packets, none of which
matches an in-flight request, leaves the RequestTable and the id counter
untouched (no OutstandingRequest is created) and increases the `unlinked`
counter of each code by exactly the number of those responses carrying that
code. -/
theorem unmatched_responses_count_unlinked (t : ℚ) (s : RsState)
    (ps : List RsPacket)
    (hresp : ∀ p ∈ ps, p.req = false)
    (hnone : ∀ p ∈ ps, rsFind s.table p.key = none) :
    (rs_process_all t s ps).table = s.table ∧
    (rs_process_all t s ps).nextId = s.nextId ∧
    ∀ c, ((rs_process_all t s ps).stats c).interval.unlinked =
      (s.stats c).interval.unlinked + (ps.filter (fun p => p.code == c)).length := by
  induction ps generalizing s with
  | nil => simp [rs_process_all]
  | cons p ps ih =>
    have hp := hresp p (by simp)
    have hf := hnone p (by simp)
    obtain ⟨h1, h2, h3⟩ := rs_response_nomatch_step t s p hp hf
    have hrun : rs_process_all t s (p :: ps) =
        rs_process_all t (rs_packet_process t s p) ps := rfl
    have htail := ih (rs_packet_process t s p)
      (fun q hq => hresp q (by simp [hq]))
      (fun q hq => by rw [show (rs_packet_process t s p).table = s.table from h1]
                      exact hnone q (by simp [hq]))
    obtain ⟨t1, t2, t3⟩ := htail
    refine ⟨by rw [hrun, t1, h1], by rw [hrun, t2, h2], ?_⟩
    intro c
    rw [hrun, t3 c, h3 c]
    by_cases hc : p.code = c
    · simp [List.filter_cons, hc]; omega
    · simp [List.filter_cons, hc]

/-- A concrete unmatched-response packet for the C4 witness. -/
def c4Pkt (k : Nat) : RsPacket :=
  { code := 2, req := false, key := k, fingerprint := 0, ts := 0 }

/-- Witness for C4: two unmatched responses of code 2 processed from the empty
state leave the table empty and bring `unlinked` for code 2 to exactly 2. -/
theorem unmatched_responses_count_unlinked_witness :
    (rs_process_all 6 rsInitState [c4Pkt 5, c4Pkt 7]).table = rsInitState.table ∧
    (rs_process_all 6 rsInitState [c4Pkt 5, c4Pkt 7]).nextId = rsInitState.nextId ∧
    ∀ c, ((rs_process_all 6 rsInitState [c4Pkt 5, c4Pkt 7]).stats c).interval.unlinked =
      (rsInitState.stats c).interval.unlinked +
        ([c4Pkt 5, c4Pkt 7].filter (fun p => p.code == c)).length :=
  unmatched_responses_count_unlinked 6 rsInitState [c4Pkt 5, c4Pkt 7]
    (by intro p hp; simp only [List.mem_cons, List.not_mem_nil, or_false] at hp
        rcases hp with h | h <;> subst h <;> rfl)
    (by intro p hp; simp only [List.mem_cons, List.not_mem_nil, or_false] at hp
        rcases hp with h | h <;> subst h <;> rfl)

theorem rsFind_setForced (l : List RsRequest) (k : Nat) :
    rsFind (l.map (fun r => if r.key == k then { r with forced_cleanup := true } else r)) k =
      (rsFind l k).map (fun r => { r with forced_cleanup := true }) := by
  induction l with
  | nil => simp [rsFind]
  | cons r l ih =>
    cases hb : r.key == k with
    | false =>
      have hfr : (fun q : RsRequest =>
          if q.key == k then { q with forced_cleanup := true } else q) r = r := by
        simp [hb]
      simp only [rsFind, List.map_cons, hfr] at ih ⊢
      rw [List.find?_cons_of_neg _ (by simp_all), List.find?_cons_of_neg _ (by simp_all)]
      exact ih
    | true =>
      have hkey : r.key = k := by simpa using hb
      have hfr : (fun q : RsRequest =>
          if q.key == k then { q with forced_cleanup := true } else q) r =
          { r with forced_cleanup := true } := by simp [hb]
      simp only [rsFind, List.map_cons, hfr]
      rw [List.find?_cons_of_pos _ (by simp [hkey]), List.find?_cons_of_pos _ (by simp [hkey])]
      simp

/-- C5: an OutstandingRequest whose `forced_cleanup` flag is set contributes
to neither the `lost` nor the `linked` counter of any latency bucket, on every
teardown path: expiry firing on a flagged entry leaves both counters of every
code unchanged, and so does a policy teardown (flag-and-remove) of any entry. -/
theorem forced_cleanup_excluded_from_loss (s : RsState) (k : Nat)
    (r : RsRequest) (c : Nat)
    (hfind : rsFind s.table k = some r)
    (hflag : r.forced_cleanup = true) :
    (((rs_packet_cleanup s k).stats c).interval.lost = ((s.stats c).interval.lost) ∧
     ((rs_packet_cleanup s k).stats c).interval.linked = ((s.stats c).interval.linked)) ∧
    (∀ (s' : RsState) (k' : Nat),
      (((rs_force_cleanup s' k').stats c).interval.lost = ((s'.stats c).interval.lost) ∧
       ((rs_force_cleanup s' k').stats c).interval.linked = ((s'.stats c).interval.linked))) := by
  constructor
  · simp [rs_packet_cleanup, hfind, hflag]
  · intro s' k'
    simp only [rs_force_cleanup, rs_packet_cleanup]
    have hmap : rsFind (rsSetForced s' k').table k' =
        (rsFind s'.table k').map (fun q => { q with forced_cleanup := true }) := by
      simp only [rsSetForced]
      exact rsFind_setForced s'.table k'
    cases hcase : rsFind s'.table k' with
    | none => rw [hmap, hcase]; simp [rsSetForced]
    | some q =>
      rw [hmap, hcase]
      simp [rsSetForced]

/-- A concrete state holding one flagged entry for the C5 witness. -/
def c5State : RsState :=
  { table := [{ id := 0, key := 3, code := 1, fingerprint := 0, ts := 0,
                expiry := 6, rt_req := 0, rt_rsp := 0, forced_cleanup := true }],
    stats := fun _ => rsLatencyInit, nextId := 1 }

/-- Witness for C5: tearing down the flagged entry of `c5State`, by expiry or
by forced cleanup, leaves `lost` and `linked` for code 1 unchanged. -/
theorem forced_cleanup_excluded_from_loss_witness :
    (((rs_packet_cleanup c5State 3).stats 1).interval.lost =
        ((c5State.stats 1).interval.lost) ∧
     ((rs_packet_cleanup c5State 3).stats 1).interval.linked =
        ((c5State.stats 1).interval.linked)) ∧
    (∀ (s' : RsState) (k' : Nat),
      (((rs_force_cleanup s' k').stats 1).interval.lost = ((s'.stats 1).interval.lost) ∧
       ((rs_force_cleanup s' k').stats 1).interval.linked = ((s'.stats 1).interval.linked))) :=
  forced_cleanup_excluded_from_loss c5State 3
    { id := 0, key := 3, code := 1, fingerprint := 0, ts := 0,
      expiry := 6, rt_req := 0, rt_rsp := 0, forced_cleanup := true } 1
    rfl rfl

theorem rs_retransmit_fold (t : ℚ) (p : RsPacket) (hreq : p.req = true) :
    ∀ (K : Nat) (s : RsState) (e : RsRequest), s.table = [e] →
      e.key = p.key → e.fingerprint = p.fingerprint →
      (rs_process_all t s (List.replicate K p)).table =
        [{ e with rt_req := e.rt_req + K }] ∧
      (rs_process_all t s (List.replicate K p)).nextId = s.nextId := by
  intro K
  induction K with
  | zero =>
    intro s e htable hkey hfp
    constructor
    · simpa [rs_process_all] using htable
    · simp [rs_process_all]
  | succ K ih =>
    intro s e htable hkey hfp
    have hfind : rsFind s.table p.key = some e := by
      simp [rsFind, htable, hkey]
    have htab' : (rs_packet_process t s p).table =
        [{ e with rt_req := e.rt_req + 1 }] := by
      simp [rs_packet_process, rsFind, htable, hkey, hfp, hreq]
    have hnext' : (rs_packet_process t s p).nextId = s.nextId := by
      simp [rs_packet_process, rsFind, htable, hkey, hfp, hreq]
    obtain ⟨ta, nx⟩ := ih (rs_packet_process t s p) { e with rt_req := e.rt_req + 1 }
      htab' (by simpa using hkey) (by simpa using hfp)
    have hrun : rs_process_all t s (List.replicate (K + 1) p) =
        rs_process_all t (rs_packet_process t s p) (List.replicate K p) := by
      rw [List.replicate_succ]; rfl
    constructor
    · rw [hrun, ta]
      obtain ⟨eid, ekey, ecode, efp, ets, eex, ert, err, efc⟩ := e
      simp
      omega
    · rw [hrun, nx, hnext']

/-- C1 (amended): for every K >= 1, processing K identical request packets
(same key, same fingerprint) from the empty state before any response creates
exactly one OutstandingRequest for that key (the id counter advances exactly
once) and leaves its `rt_req` retransmit counter equal to K - 1, uncapped; the
`min` against `RS_RETRANSMIT_MAX` applies to the histogram bucket index, not
to the counter itself. -/
theorem retransmit_counter_and_single_entry (t : ℚ) (p : RsPacket) (K : Nat)
    (hreq : p.req = true) (hK : 1 ≤ K) :
    (rs_process_all t rsInitState (List.replicate K p)).table =
      [{ id := 0, key := p.key, code := p.code, fingerprint := p.fingerprint,
         ts := p.ts, expiry := p.ts + t, rt_req := K - 1, rt_rsp := 0,
         forced_cleanup := false }] ∧
    (rs_process_all t rsInitState (List.replicate K p)).nextId = 1 := by
  obtain ⟨K', rfl⟩ : ∃ K', K = K' + 1 := ⟨K - 1, by omega⟩
  have hrun : rs_process_all t rsInitState (List.replicate (K' + 1) p) =
      rs_process_all t (rs_packet_process t rsInitState p) (List.replicate K' p) := by
    rw [List.replicate_succ]; rfl
  have hstep : rs_packet_process t rsInitState p =
      { table := [{ id := 0, key := p.key, code := p.code,
                    fingerprint := p.fingerprint, ts := p.ts, expiry := p.ts + t,
                    rt_req := 0, rt_rsp := 0, forced_cleanup := false }],
        stats := rsInitState.stats, nextId := 1 } := by
    simp [rs_packet_process, rsFind, rsInitState, hreq]
  obtain ⟨ta, nx⟩ := rs_retransmit_fold t p hreq K'
    (rs_packet_process t rsInitState p)
    { id := 0, key := p.key, code := p.code, fingerprint := p.fingerprint,
      ts := p.ts, expiry := p.ts + t, rt_req := 0, rt_rsp := 0,
      forced_cleanup := false }
    (by rw [hstep]) rfl rfl
  constructor
  · rw [hrun, ta]
    simp
  · rw [hrun, nx, hstep]

/-- The identical request packet used for the C1 counterexample and witness. -/
def c1Pkt : RsPacket :=
  { code := 1, req := true, key := 0, fingerprint := 0, ts := 0 }

/-- Counterexample to C1 as stated: after K = 7 identical request packets the
single entry's `rt_req` is 6, not `min (7 - 1) RS_RETRANSMIT_MAX = 5`. -/
theorem retransmit_counter_claim_false :
    ¬ ((rs_process_all 6 rsInitState (List.replicate 7 c1Pkt)).table.map
        (fun r => r.rt_req) = [min (7 - 1) RS_RETRANSMIT_MAX]) := by
  decide

/-- Witness for the amended C1: three identical requests yield exactly one
entry with `rt_req = 2` and an id counter of 1. -/
theorem retransmit_counter_and_single_entry_witness :
    (rs_process_all 6 rsInitState (List.replicate 3 c1Pkt)).table =
      [{ id := 0, key := c1Pkt.key, code := c1Pkt.code,
         fingerprint := c1Pkt.fingerprint, ts := c1Pkt.ts,
         expiry := c1Pkt.ts + 6, rt_req := 3 - 1, rt_rsp := 0,
         forced_cleanup := false }] ∧
    (rs_process_all 6 rsInitState (List.replicate 3 c1Pkt)).nextId = 1 :=
  retransmit_counter_and_single_entry 6 c1Pkt 3 rfl (by omega)

theorem rsFind_filter_out (l : List RsRequest) (k : Nat) :
    rsFind (l.filter (fun q => !(q.key == k))) k = none := by
  simp only [rsFind, List.find?_eq_none]
  intro x hx
  have := (List.mem_filter.mp hx).2
  simpa using this

theorem rsFirstFire_bounds (q d : ℚ) :
    ∀ checks : List ℚ,
      List.Chain' (fun a b => b ≤ a + q) checks →
      (∀ t0, checks.head? = some t0 → t0 ≤ d + q) →
      (∃ t ∈ checks, d ≤ t) →
      ∃ t, rsFirstFire d checks = some t ∧ d ≤ t ∧ t ≤ d + q := by
  intro checks
  induction checks with
  | nil =>
    intro _ _ hex
    obtain ⟨t, ht, -⟩ := hex
    exact absurd ht (List.not_mem_nil t)
  | cons t0 rest ih =>
    intro hchain hhead hex
    by_cases h0 : d ≤ t0
    · refine ⟨t0, ?_, h0, hhead t0 rfl⟩
      simp [rsFirstFire, List.find?_cons, h0]
    · have hfind : rsFirstFire d (t0 :: rest) = rsFirstFire d rest := by
        simp [rsFirstFire, List.find?_cons, h0]
      obtain ⟨hstep, hchain'⟩ := List.chain'_cons'.mp hchain
      have hhead' : ∀ t1, rest.head? = some t1 → t1 ≤ d + q := by
        intro t1 ht1
        have hle : t1 ≤ t0 + q := hstep t1 ht1
        have : t0 < d := lt_of_not_le h0
        linarith
      have hex' : ∃ t ∈ rest, d ≤ t := by
        obtain ⟨t, ht, hdt⟩ := hex
        rcases List.mem_cons.mp ht with rfl | hmem
        · exact absurd hdt h0
        · exact ⟨t, hmem, hdt⟩
      obtain ⟨t, h1, h2, h3⟩ := ih hchain' hhead' hex'
      exact ⟨t, by rw [hfind]; exact h1, h2, h3⟩

/-- C7: a Pending OutstandingRequest whose expiry timer was armed at
`first-seen + timeout` and that receives no response fires at the first
scheduler wakeup past its deadline — no earlier than `timeout` after the
first-seen request and no later than `timeout` plus one scheduler quantum
(given wakeups at most one quantum apart and covering the deadline) — and the
expiry teardown increments `lost` for its code exactly once (the flag being
clear) and removes the entry from the table. -/
theorem pending_expiry_fires_within_quantum (s : RsState) (k : Nat)
    (r : RsRequest) (timeout q : ℚ) (checks : List ℚ)
    (hfind : rsFind s.table k = some r)
    (hflag : r.forced_cleanup = false)
    (hexp : r.expiry = r.ts + timeout)
    (hchain : List.Chain' (fun a b => b ≤ a + q) checks)
    (hhead : ∀ t0, checks.head? = some t0 → t0 ≤ r.expiry + q)
    (hcover : ∃ t ∈ checks, r.expiry ≤ t) :
    (∃ t, rsFirstFire r.expiry checks = some t ∧
      r.ts + timeout ≤ t ∧ t ≤ r.ts + timeout + q) ∧
    ((rs_packet_cleanup s k).stats r.code).interval.lost =
      ((s.stats r.code).interval.lost) + 1 ∧
    (∀ c, c ≠ r.code →
      ((rs_packet_cleanup s k).stats c).interval.lost = ((s.stats c).interval.lost)) ∧
    rsFind (rs_packet_cleanup s k).table k = none := by
  refine ⟨?_, ?_, ?_, ?_⟩
  · obtain ⟨t, h1, h2, h3⟩ := rsFirstFire_bounds q r.expiry checks hchain hhead hcover
    rw [hexp] at h2 h3
    exact ⟨t, h1, h2, h3⟩
  · simp [rs_packet_cleanup, hfind, hflag, updStats]
  · intro c hc
    simp [rs_packet_cleanup, hfind, hflag, updStats, hc]
  · have : (rs_packet_cleanup s k).table =
        s.table.filter (fun q => !(q.key == k)) := by
      simp [rs_packet_cleanup, hfind]
    rw [this]
    exact rsFind_filter_out s.table k

/-- A concrete state holding one Pending unanswered entry for the C7 witness:
first seen at t = 0, timeout 6, so the timer deadline is 6. -/
def c7State : RsState :=
  { table := [{ id := 0, key := 9, code := 1, fingerprint := 0, ts := 0,
                expiry := 6, rt_req := 0, rt_rsp := 0, forced_cleanup := false }],
    stats := fun _ => rsLatencyInit, nextId := 1 }

/-- Witness for C7: with scheduler wakeups at 0, 4 and 8 (quantum 4), the
entry armed for deadline 6 fires at 8, within [6, 10]; `lost` for code 1 goes
from 0 to 1 and the entry is gone from the table. -/
theorem pending_expiry_fires_within_quantum_witness :
    (∃ t, rsFirstFire (6 : ℚ) [0, 4, 8] = some t ∧
      (0 : ℚ) + 6 ≤ t ∧ t ≤ (0 : ℚ) + 6 + 4) ∧
    ((rs_packet_cleanup c7State 9).stats 1).interval.lost =
      ((c7State.stats 1).interval.lost) + 1 ∧
    (∀ c, c ≠ 1 →
      ((rs_packet_cleanup c7State 9).stats c).interval.lost =
        ((c7State.stats c).interval.lost)) ∧
    rsFind (rs_packet_cleanup c7State 9).table 9 = none :=
  pending_expiry_fires_within_quantum c7State 9
    { id := 0, key := 9, code := 1, fingerprint := 0, ts := 0,
      expiry := 6, rt_req := 0, rt_rsp := 0, forced_cleanup := false }
    6 4 [0, 4, 8] rfl rfl (by norm_num)
    (by norm_num [List.chain'_cons, List.chain'_singleton])
    (by intro t0 h
        have : t0 = (0 : ℚ) := by simpa using h.symm
        rw [this]; norm_num)
    ⟨8, by norm_num, by norm_num⟩

end Radsniff

namespace ProtoArp

/-- C8: `arp_socket_recv` creates a request only for frames that pass every
validation check — it returns 0 without allocating a packet whenever the
capture length is below the Ethernet header plus the 28-byte ARP header, the
hardware format is not `ARPHRD_ETHER`, the protocol format is not 0x0800, the
hardware address length is not 6, or the protocol address length is not 4 —
and it returns 1 exactly when the packet was handed to `request_receive`
successfully. -/
theorem arp_socket_recv_validation (env : ArpRecvEnv) :
    ((arp_socket_recv env).ret = 1 ↔ (arp_socket_recv env).received = true) ∧
    (∀ caplen ar_hrd ar_pro ar_hln ar_pln : Nat,
      env.next = .packet caplen ar_hrd ar_pro ar_hln ar_pln →
      (caplen < sizeofEthernetHeader + sizeofArphdrEtherIpv4 ∨
       ar_hrd ≠ ARPHRD_ETHER ∨ ar_pro ≠ 0x0800 ∨
       ar_hln ≠ ETHER_ADDR_LEN ∨ ar_pln ≠ 4) →
      (arp_socket_recv env).ret = 0 ∧ (arp_socket_recv env).allocated = false) := by
  constructor
  · cases hnext : env.next with
    | timeout => simp [arp_socket_recv, hnext]
    | fail => simp [arp_socket_recv, hnext]
    | packet caplen ar_hrd ar_pro ar_hln ar_pln =>
      simp only [arp_socket_recv, hnext]
      split_ifs <;> simp
  · intro caplen ar_hrd ar_pro ar_hln ar_pln hnext hbad
    simp only [arp_socket_recv, hnext]
    split_ifs with h1 h2 h3 h4 h5 h6 h7 <;> simp_all

/-- A frame one byte too short for the C8 witness. -/
def c8Env : ArpRecvEnv :=
  { next := .packet 41 1 0x0800 6 4, tallocOk := true, requestReceiveOk := true }

/-- Witness for C8: a 41-byte capture (below the 14 + 28 byte minimum) is
ignored with return 0 and no allocation. -/
theorem arp_socket_recv_validation_witness :
    (arp_socket_recv c8Env).ret = 0 ∧ (arp_socket_recv c8Env).allocated = false :=
  (arp_socket_recv_validation c8Env).2 41 1 0x0800 6 4 rfl
    (Or.inl (by norm_num [sizeofEthernetHeader, sizeofArphdrEtherIpv4]))

/-- The `(field index, byte offset)` walk of the decode loop: field `i` at
offset `off`, each next field at the previous offset plus that field's
length. -/
def arpFieldOffsets : Nat → Nat → List (String × Nat) → List (Nat × Nat)
  | _, _, [] => []
  | i, off, (_, len) :: rest => (i, off) :: arpFieldOffsets (i + 1) (off + len) rest

theorem arpDecodeLoop_eq_takeWhile (env : ArpDecodeEnv) :
    ∀ (fs : List (String × Nat)) (i off : Nat),
      arpDecodeLoop env i off fs =
        (arpFieldOffsets i off fs).takeWhile
          (fun pr => env.dictHas pr.1 && env.decodeOk pr.1) := by
  intro fs
  induction fs with
  | nil => intro i off; simp [arpDecodeLoop, arpFieldOffsets]
  | cons f rest ih =>
    intro i off
    obtain ⟨name, len⟩ := f
    by_cases hd : env.dictHas i
    · by_cases hk : env.decodeOk i
      · simp [arpDecodeLoop, arpFieldOffsets, List.takeWhile_cons, hd, hk, ih]
      · simp [arpDecodeLoop, arpFieldOffsets, List.takeWhile_cons, hd, hk]
    · simp [arpDecodeLoop, arpFieldOffsets, List.takeWhile_cons, hd]

/-- C9: `arp_socket_decode` walks exactly the nine fixed ARP header fields in
wire order at consecutive offsets (0, 2, 4, 5, 6, 8, 14, 18, 24) whose lengths
sum to the 28-byte ARP header, adds one value pair per successfully decoded
field, stops adding pairs at the first field whose dictionary attribute is
missing or whose decode fails, and always returns 0. -/
theorem arp_socket_decode_walks_fixed_fields (env : ArpDecodeEnv) :
    (arp_socket_decode env).2 = 0 ∧
    header_names.length = 9 ∧
    (header_names.map Prod.snd).sum = sizeofArphdrEtherIpv4 ∧
    arpFieldOffsets 0 0 header_names =
      [(0, 0), (1, 2), (2, 4), (3, 5), (4, 6), (5, 8), (6, 14), (7, 18), (8, 24)] ∧
    (arp_socket_decode env).1 =
      (arpFieldOffsets 0 0 header_names).takeWhile
        (fun pr => env.dictHas pr.1 && env.decodeOk pr.1) := by
  refine ⟨rfl, rfl, rfl, by decide, ?_⟩
  exact arpDecodeLoop_eq_takeWhile env header_names 0 0

/-- C10: `arp_socket_parse` fails with -1 and performs no pcap setup when the
configuration has no "interface" pair or the pair has no value; and when
`check_config` is set it returns 0 right after creating the pcap handle,
without opening the interface and without applying the "arp" filter. -/
theorem arp_socket_parse_interface_and_check_config (env : ArpParseEnv) :
    ((env.interfacePair = none ∨ env.interfacePair = some none) →
      (arp_socket_parse env).ret = -1 ∧
      (arp_socket_parse env).initCalled = false ∧
      (arp_socket_parse env).openCalled = false ∧
      (arp_socket_parse env).filterCalled = false) ∧
    (∀ v, env.interfacePair = some (some v) → env.pcapInitOk = true →
      env.checkConfig = true →
      (arp_socket_parse env).ret = 0 ∧
      (arp_socket_parse env).openCalled = false ∧
      (arp_socket_parse env).filterCalled = false) := by
  constructor
  · intro h
    rcases h with h | h <;> simp [arp_socket_parse, h]
  · intro v hv hinit hcheck
    simp [arp_socket_parse, hv, hinit, hcheck]

/-- Witness for C10, first part: a configuration without an "interface" pair. -/
def c10EnvA : ArpParseEnv :=
  { interfacePair := none, pcapInitOk := true, checkConfig := false,
    pcapOpenOk := true, filterOk := true }

/-- Witness for C10, second part: an interface value with `check_config` set. -/
def c10EnvB : ArpParseEnv :=
  { interfacePair := some (some "eth0"), pcapInitOk := true, checkConfig := true,
    pcapOpenOk := true, filterOk := true }

/-- Witness for C10: without an "interface" pair the parse fails with -1 and
no pcap setup; with `check_config` set it returns 0 having neither opened the
interface nor applied the filter. -/
theorem arp_socket_parse_interface_and_check_config_witness :
    ((arp_socket_parse c10EnvA).ret = -1 ∧
     (arp_socket_parse c10EnvA).initCalled = false ∧
     (arp_socket_parse c10EnvA).openCalled = false ∧
     (arp_socket_parse c10EnvA).filterCalled = false) ∧
    ((arp_socket_parse c10EnvB).ret = 0 ∧
     (arp_socket_parse c10EnvB).openCalled = false ∧
     (arp_socket_parse c10EnvB).filterCalled = false) :=
  ⟨(arp_socket_parse_interface_and_check_config c10EnvA).1 (Or.inl rfl),
   (arp_socket_parse_interface_and_check_config c10EnvB).2 "eth0" rfl rfl rfl⟩

end ProtoArp
